import Mathlib

/-!
Verification of the mcpx repository (a CLI/daemon bridge to MCP servers)
against its natural-language specification.

The Go sources are shallowly embedded: pure logic becomes Lean functions,
I/O results (HTTP responses, file loads, token refresh network calls)
become explicit parameters, Go maps become association lists, Go's
`float64` timestamps become `ℚ`, and fallible operations return
`Option`/`Except`.  JSON (de)serialisation performed by Go's
`encoding/json` is modelled at the JSON-tree level: a `Json` inductive
stands for the parsed document, and the struct⇄object mapping induced by
the Go field tags (including `omitempty`) is embedded faithfully.
-/

namespace Mcpx

/-- A JSON document tree.  Stands for the value that Go's `encoding/json`
exchanges with the wire; numbers are modelled as rationals. -/
inductive Json where
  | null
  | bool (b : Bool)
  | num (q : ℚ)
  | str (s : String)
  | arr (elems : List Json)
  | obj (fields : List (String × Json))

/-- `Tool` from config.go: `Name` (always emitted), `Description`
(`omitempty`), `Parameters` (`omitempty` map, `none` = Go nil map). -/
structure Tool where
  name : String
  description : String
  parameters : Option (List (String × Json))

/-- `DaemonCommand` from daemon.go: `Action`, `Server` (`omitempty`),
`Tool` (`omitempty`), `Arguments` (`omitempty` map). -/
structure DaemonCommand where
  action : String
  server : String
  tool : String
  arguments : Option (List (String × Json))

/-- `ErrorResponse` from the response/error-code source file. -/
structure ErrorResponse where
  code : String
  message : String
  deriving DecidableEq

/-- `Response` from the response/error-code source file: `OK`,
`Data` (`omitempty` interface, `none` = Go nil), `Error` (`omitempty`
pointer). -/
structure Response where
  ok : Bool
  data : Option Json
  error : Option ErrorResponse

/-- `TokenData` from config.go.  `ExpiresAt` is Go `float64`, modelled
as `ℚ`; `ExpiresIn` is Go `int`. -/
structure TokenData where
  accessToken : String
  refreshToken : String
  expiresIn : Int
  expiresAt : ℚ
  tokenType : String
  deriving DecidableEq

/-! ### Go `encoding/json` field decoding at tree level

Decoding a JSON object into a Go struct: an absent member leaves the
field at its zero value, a `null` member leaves it unchanged (hence also
zero), and a member of the wrong shape is an unmarshal error. -/

/-- Decode a Go `string` struct field from an object's members. -/
def decodeStringField (fields : List (String × Json)) (key : String) : Option String :=
  match fields.lookup key with
  | none => some ""
  | some Json.null => some ""
  | some (Json.str s) => some s
  | some _ => none

/-- Decode a Go `bool` struct field from an object's members. -/
def decodeBoolField (fields : List (String × Json)) (key : String) : Option Bool :=
  match fields.lookup key with
  | none => some false
  | some Json.null => some false
  | some (Json.bool b) => some b
  | some _ => none

/-- Decode a Go `int` struct field: the JSON number must be integral. -/
def decodeIntField (fields : List (String × Json)) (key : String) : Option Int :=
  match fields.lookup key with
  | none => some 0
  | some Json.null => some 0
  | some (Json.num q) => if q.den = 1 then some q.num else none
  | some _ => none

/-- Decode a Go `float64` struct field (modelled as `ℚ`). -/
def decodeNumField (fields : List (String × Json)) (key : String) : Option ℚ :=
  match fields.lookup key with
  | none => some 0
  | some Json.null => some 0
  | some (Json.num q) => some q
  | some _ => none

/-- Decode a Go `map[string]any` struct field: absent or `null` leaves
the nil map (`none`); an object member yields a present map — note that
an empty object decodes to a present-but-empty (non-nil) Go map. -/
def decodeMapField (fields : List (String × Json)) (key : String) :
    Option (Option (List (String × Json))) :=
  match fields.lookup key with
  | none => some none
  | some Json.null => some none
  | some (Json.obj ps) => some (some ps)
  | some _ => none

/-- Decode a Go `any` struct field: absent or `null` yields the nil
interface (`none`); anything else is kept as the JSON tree. -/
def decodeAnyField (fields : List (String × Json)) (key : String) : Option Json :=
  match fields.lookup key with
  | none => none
  | some Json.null => none
  | some j => some j

/-! ### Wire-type encoders/decoders (struct tags from the source) -/

/-- Go marshalling of `Tool` (field order `name`, `description`,
`parameters`; the latter two carry `omitempty`, so an empty string and a
nil-or-empty map are omitted). -/
def encodeTool (t : Tool) : Json :=
  Json.obj (("name", Json.str t.name) ::
    ((if t.description = "" then [] else [("description", Json.str t.description)]) ++
     (match t.parameters with
      | none => []
      | some ps => if ps.isEmpty then [] else [("parameters", Json.obj ps)])))

/-- Go unmarshalling into `Tool`. -/
def decodeTool (j : Json) : Option Tool :=
  match j with
  | Json.obj fields =>
    match decodeStringField fields "name", decodeStringField fields "description",
          decodeMapField fields "parameters" with
    | some n, some d, some p => some { name := n, description := d, parameters := p }
    | _, _, _ => none
  | Json.null => some { name := "", description := "", parameters := none }
  | _ => none

/-- Go marshalling of `DaemonCommand`. -/
def encodeCommand (c : DaemonCommand) : Json :=
  Json.obj (("action", Json.str c.action) ::
    ((if c.server = "" then [] else [("server", Json.str c.server)]) ++
     (if c.tool = "" then [] else [("tool", Json.str c.tool)]) ++
     (match c.arguments with
      | none => []
      | some args => if args.isEmpty then [] else [("arguments", Json.obj args)])))

/-- Go unmarshalling into `DaemonCommand`. -/
def decodeCommand (j : Json) : Option DaemonCommand :=
  match j with
  | Json.obj fields =>
    match decodeStringField fields "action", decodeStringField fields "server",
          decodeStringField fields "tool", decodeMapField fields "arguments" with
    | some a, some s, some t, some args =>
      some { action := a, server := s, tool := t, arguments := args }
    | _, _, _, _ => none
  | Json.null => some { action := "", server := "", tool := "", arguments := none }
  | _ => none

/-- Go marshalling of `ErrorResponse`. -/
def encodeErrorResponse (e : ErrorResponse) : Json :=
  Json.obj [("code", Json.str e.code), ("message", Json.str e.message)]

/-- Go unmarshalling into `*ErrorResponse` (a pointer field: absent or
`null` yields nil). -/
def decodeErrorField (fields : List (String × Json)) (key : String) :
    Option (Option ErrorResponse) :=
  match fields.lookup key with
  | none => some none
  | some Json.null => some none
  | some (Json.obj fs) =>
    match decodeStringField fs "code", decodeStringField fs "message" with
    | some c, some m => some (some { code := c, message := m })
    | _, _ => none
  | some _ => none

/-- Go marshalling of `Response` (`ok` always; `data`, `error`
`omitempty`). -/
def encodeResponse (r : Response) : Json :=
  Json.obj (("ok", Json.bool r.ok) ::
    ((match r.data with
      | none => []
      | some j => [("data", j)]) ++
     (match r.error with
      | none => []
      | some e => [("error", encodeErrorResponse e)])))

/-- Go unmarshalling into `Response`. -/
def decodeResponse (j : Json) : Option Response :=
  match j with
  | Json.obj fields =>
    match decodeBoolField fields "ok", decodeErrorField fields "error" with
    | some okv, some errv =>
      some { ok := okv, data := decodeAnyField fields "data", error := errv }
    | _, _ => none
  | Json.null => some { ok := false, data := none, error := none }
  | _ => none

/-- Go marshalling of `TokenData` (all fields but `access_token` carry
`omitempty`; zero numbers are omitted). -/
def encodeTokenData (td : TokenData) : Json :=
  Json.obj (("access_token", Json.str td.accessToken) ::
    ((if td.refreshToken = "" then [] else [("refresh_token", Json.str td.refreshToken)]) ++
     (if td.expiresIn = 0 then [] else [("expires_in", Json.num (td.expiresIn : ℚ))]) ++
     (if td.expiresAt = 0 then [] else [("expires_at", Json.num td.expiresAt)]) ++
     (if td.tokenType = "" then [] else [("token_type", Json.str td.tokenType)])))

/-- Go unmarshalling into `TokenData`. -/
def decodeTokenData (j : Json) : Option TokenData :=
  match j with
  | Json.obj fields =>
    match decodeStringField fields "access_token", decodeStringField fields "refresh_token",
          decodeIntField fields "expires_in", decodeNumField fields "expires_at",
          decodeStringField fields "token_type" with
    | some a, some r, some ei, some ea, some tt =>
      some { accessToken := a, refreshToken := r, expiresIn := ei, expiresAt := ea,
             tokenType := tt }
    | _, _, _, _, _ => none
  | Json.null =>
    some { accessToken := "", refreshToken := "", expiresIn := 0, expiresAt := 0,
           tokenType := "" }
  | _ => none

/-! ### JSON-RPC response type and the SSE parser (mcp.go) -/

/-- `RPCError` from config.go. -/
structure RPCError where
  code : Int
  message : String
  deriving DecidableEq

/-- `MCPResponse` from config.go.  `Result` is a Go `map[string]any`
(`none` = nil map). -/
structure MCPResponse where
  jsonrpc : String
  id : String
  result : Option (List (String × Json))
  error : Option RPCError

/-- Go's `unicode.IsSpace` restricted to the ASCII range (the payloads
at issue are ASCII; the Unicode cases are irrelevant to the claims). -/
def goIsSpace (c : Char) : Bool :=
  c = ' ' ∨ c = '\t' ∨ c = '\n' ∨ c = '\x0b' ∨ c = '\x0c' ∨ c = '\r'

/-- `strings.TrimSpace` on the character list of a Go string. -/
def trimChars (cs : List Char) : List Char :=
  ((cs.dropWhile goIsSpace).reverse.dropWhile goIsSpace).reverse

/-- `strings.Split(s, "\n")`: accumulate the current line (reversed)
and cut at each newline. -/
def splitLinesAux : List Char → List Char → List (List Char)
  | [], cur => [cur.reverse]
  | c :: rest, cur =>
    if c = '\n' then cur.reverse :: splitLinesAux rest []
    else splitLinesAux rest (c :: cur)

/-- The line list `parseSSEResponse` iterates over:
`strings.Split(strings.TrimSpace(text), "\n")`. -/
def sseLines (text : String) : List (List Char) :=
  splitLinesAux (trimChars text.data) []

/-- One iteration of `parseSSEResponse`'s loop body (mcp.go): a line is
used only when it starts with `data:`; the prefix is dropped, the
remainder trimmed, and — when non-empty — handed to `json.Unmarshal`
(the `unmarshal` parameter, an external-library call). -/
def sseDecodeLine (unmarshal : String → Option MCPResponse) (line : List Char) :
    Option MCPResponse :=
  if "data:".data.isPrefixOf line then
    let dataStr := trimChars (line.drop 5)
    if dataStr.isEmpty then none else unmarshal (String.mk dataStr)
  else none

/-- `parseSSEResponse` from mcp.go: split the trimmed body into lines,
return the first `data:` line whose payload unmarshals; otherwise try
the whole body as plain JSON; `none` models the returned error. -/
def parseSSEResponse (unmarshal : String → Option MCPResponse) (text : String) :
    Option MCPResponse :=
  match (sseLines text).findSome? (sseDecodeLine unmarshal) with
  | some resp => some resp
  | none => unmarshal text

/-! ### Configuration model (config.go) -/

/-- `OAuthConfig` from config.go. -/
structure OAuthConfig where
  authURL : String
  tokenURL : String
  registrationURL : String
  clientID : String
  clientSecret : String
  scopes : List String
  scope : String
  resource : String

/-- `ServerConfig` from config.go.  The `SessionBased` field is declared
in a sibling source file (it is referenced by mcp.go and daemon.go and
exercised by config_test.go).  The `Local` member is omitted: none of
the verified operations reads it except for nil-checks that the claims
do not touch. -/
structure ServerConfig where
  url : String
  headers : List (String × String)
  oauth : Option OAuthConfig
  scope : String
  sessionBased : Bool

/-- The Go zero value of `ServerConfig` (what `oldConfig.Servers[name]`
yields for an absent key). -/
def zeroServerConfig : ServerConfig :=
  { url := "", headers := [], oauth := none, scope := "", sessionBased := false }

/-- `Config` from config.go; the Go map becomes an association list. -/
structure Config where
  servers : List (String × ServerConfig)

/-- `ToolsCacheTTL` from config.go (300 seconds). -/
def ToolsCacheTTL : Int := 300

/-! ### Token lifecycle (mcp.go) -/

/-- `getClientID` from mcp.go. -/
def getClientID (config : ServerConfig) : String :=
  match config.oauth with
  | some o => if o.clientID ≠ "" then o.clientID else "mcpx"
  | none => "mcpx"

/-- `RefreshOAuthToken` from mcp.go.  The HTTP POST to the token
endpoint is the `net` parameter: a transport error, or a status code
together with the body's `TokenData` decode (`none` = decode error).
On success it returns the new access token and the record persisted via
`SaveTokens`. -/
def RefreshOAuthToken (now : Int) (serverConfig : ServerConfig)
    (net : Except String (Int × Option TokenData)) (tokenData : TokenData) :
    Except String (String × TokenData) :=
  if (match serverConfig.oauth with | none => true | some o => o.tokenURL = "") then
    .error "no token URL configured"
  else
    match net with
    | .error e => .error e
    | .ok (status, body) =>
      if status ≠ 200 then .error ("token refresh failed: " ++ toString status)
      else
        match body with
        | none => .error "json decode error"
        | some newTokenData =>
          let td1 := if newTokenData.expiresIn > 0 then
              { newTokenData with expiresAt := (now : ℚ) + (newTokenData.expiresIn : ℚ) }
            else newTokenData
          let td2 := if td1.refreshToken = "" then
              { td1 with refreshToken := tokenData.refreshToken }
            else td1
          .ok (td2.accessToken, td2)

/-- `GetTokenForServer` from mcp.go.  `loadRes` is the `LoadTokens`
result; `net` is passed through to `RefreshOAuthToken`.  The pair
mirrors Go's `(string, error)` return — the error component is `none`
on every path, exactly as in the source. -/
def GetTokenForServer (serverConfig : ServerConfig)
    (net : Except String (Int × Option TokenData)) (now : Int)
    (loadRes : Except Unit (List (String × TokenData))) (serverName : String) :
    String × Option String :=
  match loadRes with
  | .error _ => ("", none)
  | .ok tokens =>
    match tokens.lookup serverName with
    | none => ("", none)
    | some tokenData =>
      if tokenData.expiresAt > 0 then
        if (now : ℚ) > tokenData.expiresAt - 60 then
          if tokenData.refreshToken ≠ "" then
            match RefreshOAuthToken now serverConfig net tokenData with
            | .error _ => ("", none)
            | .ok (newToken, _) => if newToken = "" then ("", none) else (newToken, none)
          else ("", none)
        else (tokenData.accessToken, none)
      else (tokenData.accessToken, none)

/-! ### OAuth authorization flow, post-callback segment (oauth.go) -/

/-- `redirectURI` constant from oauth.go. -/
def redirectURI : String := "http://localhost:8085/callback"

/-- What the loopback callback handler recorded when the wait ended:
`authCode`/`state` from a success redirect, `err` from an error
redirect; all empty on timeout. -/
structure CallbackResult where
  authCode : String
  state : String
  err : String

/-- The form-encoded POST that `DoOAuthFlow` sends to the token
endpoint when it reaches the exchange step. -/
structure ExchangeRequest where
  tokenURL : String
  grantType : String
  code : String
  redirectURI : String
  clientID : String
  codeVerifier : String
  clientSecret : Option String

/-- The tail of `DoOAuthFlow` (oauth.go) after `waitForCallback`
returns: validate the callback, then — and only then — build the
code-for-token exchange request.  `.error` models returning before any
request reaches the token endpoint. -/
def DoOAuthFlowExchangePhase (tokenURL clientID clientSecret codeVerifier state : String)
    (cb : CallbackResult) : Except String ExchangeRequest :=
  if cb.err ≠ "" then .error ("authorization error: " ++ cb.err)
  else if cb.authCode = "" then .error "authorization timed out or was cancelled"
  else if cb.state ≠ state then .error "state mismatch - possible CSRF attack"
  else
    .ok { tokenURL := tokenURL, grantType := "authorization_code", code := cb.authCode,
          redirectURI := redirectURI, clientID := clientID, codeVerifier := codeVerifier,
          clientSecret := if clientSecret ≠ "" then some clientSecret else none }

/-! ### MCPClient: construction and Initialize (mcp.go) -/

/-- `MCPClient` state from mcp.go (the `httpClient` handle is implied by
`persistent`). -/
structure MCPClient where
  serverName : String
  config : ServerConfig
  oauthToken : String
  sessionID : String
  persistent : Bool
  initialized : Bool

/-- `NewMCPClient` from mcp.go. -/
def NewMCPClient (serverName : String) (config : ServerConfig) : MCPClient :=
  { serverName := serverName, config := config, oauthToken := "", sessionID := "",
    persistent := config.sessionBased, initialized := false }

/-- The `initialize` RPC parameters built in `Initialize` (mcp.go);
`capabilities` is the constant empty object. -/
structure InitializeParams where
  protocolVersion : String
  clientName : String
  clientVersion : String
  deriving DecidableEq

/-- The concrete parameter values from the source. -/
def initializeParams : InitializeParams :=
  { protocolVersion := "2024-11-05", clientName := "mcpx", clientVersion := "0.1.0" }

/-- Observable outcome of `Initialize`: whether (and with what) the
RPC was issued, the resulting client session ID, the session persisted
via `SaveSessions` (if any), and the returned error. -/
structure InitOutcome where
  rpcCall : Option (String × InitializeParams)
  sessionID : String
  saved : Option (String × String)
  error : Option String

/-- The session-cache lookup at the top of `Initialize` (mcp.go): for
non-session-based servers, consult the `LoadSessions` result (skipped
entirely for session-based servers). -/
def cachedSession (c : MCPClient)
    (loadSessions : Except Unit (List (String × String))) : Option String :=
  if c.config.sessionBased then none
  else
    match loadSessions with
    | .error _ => none
    | .ok sessions => sessions.lookup c.serverName

/-- `Initialize` from mcp.go (continued): dispatch on the cache lookup,
else run the RPC. -/
def Initialize (c : MCPClient)
    (loadSessions : Except Unit (List (String × String)))
    (rpc : Except String (MCPResponse × String)) : InitOutcome :=
  match cachedSession c loadSessions with
  | some sid => { rpcCall := none, sessionID := sid, saved := none, error := none }
  | none =>
    match rpc with
    | .error e =>
      { rpcCall := some ("initialize", initializeParams), sessionID := c.sessionID,
        saved := none, error := some e }
    | .ok (resp, sessionID) =>
      match resp.error with
      | some e =>
        { rpcCall := some ("initialize", initializeParams), sessionID := c.sessionID,
          saved := none, error := some ("initialize failed: " ++ e.message) }
      | none =>
        if sessionID ≠ "" then
          { rpcCall := some ("initialize", initializeParams), sessionID := sessionID,
            saved := if c.config.sessionBased then none else some (c.serverName, sessionID),
            error := none }
        else
          { rpcCall := some ("initialize", initializeParams), sessionID := c.sessionID,
            saved := none, error := none }

/-! ### ListTools result extraction (mcp.go) -/

/-- The anonymous struct `ListTools` unmarshals each tool into. -/
structure RawTool where
  name : String
  description : String
  inputSchema : Option (List (String × Json))

/-- Go unmarshalling of one element of the `tools` array. -/
def decodeRawTool (j : Json) : Option RawTool :=
  match j with
  | Json.obj fields =>
    match decodeStringField fields "name", decodeStringField fields "description",
          decodeMapField fields "inputSchema" with
    | some n, some d, some s => some { name := n, description := d, inputSchema := s }
    | _, _, _ => none
  | Json.null => some { name := "", description := "", inputSchema := none }
  | _ => none

/-- Go unmarshalling of the `tools` member into the slice of raw tools
(`null` yields the nil slice without error). -/
def decodeRawTools (j : Json) : Option (List RawTool) :=
  match j with
  | Json.arr items => items.mapM decodeRawTool
  | Json.null => some []
  | _ => none

/-- The pure tail of `ListTools` (mcp.go): everything after the
`tools/list` request returned a response.  `.error` carries the message
of the Go error that `ListTools` returns. -/
def ListToolsFromResponse (resp : MCPResponse) : Except String (List Tool) :=
  match resp.error with
  | some e => .error ("list tools failed: " ++ e.message)
  | none =>
    match resp.result with
    | none => .error "unexpected response format"
    | some result =>
      match result.lookup "tools" with
      | none => .error "no tools in response"
      | some toolsRaw =>
        match decodeRawTools toolsRaw with
        | none => .error "json unmarshal error"
        | some rawTools =>
          .ok (rawTools.map (fun t =>
            { name := t.name, description := t.description, parameters := t.inputSchema }))

/-! ### Daemon (daemon.go and the response/error-code source file) -/

/-- Error-code constants from the response/error-code source file. -/
def ErrInvalidArgs : String := "INVALID_ARGS"

/-- `MCP_ERROR` code constant. -/
def ErrMCPError : String := "MCP_ERROR"

/-- `NOT_FOUND` code constant. -/
def ErrNotFound : String := "NOT_FOUND"

/-- `errResponse` from the response/error-code source file. -/
def errResponse (code message : String) : Response :=
  { ok := false, data := none, error := some { code := code, message := message } }

/-- `okResponse` from the response/error-code source file (`data` is
the JSON tree the Go value marshals to). -/
def okResponse (data : Json) : Response :=
  { ok := true, data := some data, error := none }

/-- `CachedTools` from daemon.go; `expires` in Unix seconds. -/
structure CachedTools where
  tools : List Tool
  expires : Int

/-- The daemon state relevant to command handling (daemon.go);
Go maps become association lists. -/
structure MCPDaemon where
  config : Config
  clients : List (String × MCPClient)
  toolsCache : List (String × CachedTools)

/-- Go map assignment `m[k] = v` on an association list: replace the
binding if the key is present, otherwise append it. -/
def setAssoc {α : Type} (l : List (String × α)) (k : String) (v : α) :
    List (String × α) :=
  match l with
  | [] => [(k, v)]
  | (k', v') :: rest => if k' = k then (k, v) :: rest else (k', v') :: setAssoc rest k v

/-- `getClient` from daemon.go.  `token` is the `GetTokenForServer`
result (its file/network inputs are outside this function). -/
def getClient (d : MCPDaemon) (serverName : String) (token : String) :
    Except String (MCPClient × MCPDaemon) :=
  match d.clients.lookup serverName with
  | some client => .ok (client, d)
  | none =>
    match d.config.servers.lookup serverName with
    | none => .error ("server '" ++ serverName ++ "' not configured")
    | some serverConfig =>
      let client := NewMCPClient serverName serverConfig
      let client := if token ≠ "" then { client with oauthToken := token } else client
      .ok (client, { d with clients := setAssoc d.clients serverName client })

/-- The cache-miss tail of `getTools` (daemon.go): acquire the client,
run `ListTools` (its result is the `listRes` parameter), and cache on
success only. -/
def getToolsFetch (d : MCPDaemon) (now : Int) (serverName : String) (token : String)
    (listRes : Except String (List Tool)) : Except String (List Tool) × MCPDaemon :=
  match getClient d serverName token with
  | .error e => (.error e, d)
  | .ok (_, d1) =>
    match listRes with
    | .error e => (.error e, d1)
    | .ok tools =>
      (.ok tools,
       { d1 with toolsCache :=
           setAssoc d1.toolsCache serverName { tools := tools, expires := now + ToolsCacheTTL } })

/-- `getTools` from daemon.go: serve a fresh cache entry, else fetch. -/
def getTools (d : MCPDaemon) (now : Int) (serverName : String) (token : String)
    (listRes : Except String (List Tool)) : Except String (List Tool) × MCPDaemon :=
  match d.toolsCache.lookup serverName with
  | some cached =>
    if now < cached.expires then (.ok cached.tools, d)
    else getToolsFetch d now serverName token listRes
  | none => getToolsFetch d now serverName token listRes

/-- `callTool` from daemon.go; `callRes` is the `CallTool` RPC result
(`resp.Result`, a possibly-nil map). -/
def callTool (d : MCPDaemon) (serverName : String) (token : String)
    (callRes : Except String (Option (List (String × Json)))) :
    Except String (Option (List (String × Json))) × MCPDaemon :=
  match getClient d serverName token with
  | .error e => (.error e, d)
  | .ok (_, d1) => (callRes, d1)

/-- The `tools` arm of `handleCommand` (daemon.go). -/
def handleToolsCommand (d : MCPDaemon) (now : Int) (cmd : DaemonCommand) (token : String)
    (listRes : Except String (List Tool)) : Response × MCPDaemon :=
  if cmd.server = "" then (errResponse ErrInvalidArgs "server name required", d)
  else
    match getTools d now cmd.server token listRes with
    | (.error e, d1) => (errResponse ErrMCPError e, d1)
    | (.ok tools, d1) =>
      (okResponse (Json.obj [("server", Json.str cmd.server),
                             ("tools", Json.arr (tools.map encodeTool))]), d1)

/-- The `call` arm of `handleCommand` (daemon.go). -/
def handleCallCommand (d : MCPDaemon) (cmd : DaemonCommand) (token : String)
    (callRes : Except String (Option (List (String × Json)))) : Response × MCPDaemon :=
  if cmd.server = "" ∨ cmd.tool = "" then
    (errResponse ErrInvalidArgs "server and tool names required", d)
  else
    match callTool d cmd.server token callRes with
    | (.error e, d1) => (errResponse ErrMCPError e, d1)
    | (.ok result, d1) =>
      (okResponse (Json.obj [("server", Json.str cmd.server), ("tool", Json.str cmd.tool),
                             ("result", match result with
                                        | none => Json.null
                                        | some m => Json.obj m)]), d1)

/-- The per-client test of `reloadConfig` (daemon.go): a client is kept
iff its server is still configured and neither `URL` nor `SessionBased`
changed (an absent old entry is Go's zero `ServerConfig`). -/
def clientSurvives (oldConfig newConfig : Config) (name : String) : Bool :=
  match newConfig.servers.lookup name with
  | none => false
  | some newSC =>
    let oldSC := (oldConfig.servers.lookup name).getD zeroServerConfig
    decide (oldSC.url = newSC.url ∧ oldSC.sessionBased = newSC.sessionBased)

/-- `reloadConfig` from daemon.go, applied to an already-loaded new
config.  Returns the new daemon state and the names of the clients that
were closed (`client.Close()` calls). -/
def reloadConfig (newConfig : Config) (d : MCPDaemon) : MCPDaemon × List String :=
  ({ config := newConfig,
     clients := d.clients.filter (fun e => clientSurvives d.config newConfig e.1),
     toolsCache := d.toolsCache.filter (fun e =>
       ! ((d.clients.filter (fun e2 => ! clientSurvives d.config newConfig e2.1)).map
            (fun e2 => e2.1)).contains e.1) },
   (d.clients.filter (fun e => ! clientSurvives d.config newConfig e.1)).map (fun e => e.1))

/-! ## Helper lemmas -/

/-- `findSome?` skips a prefix on which the function yields nothing. -/
theorem findSome?_append_of_none {α β : Type} (f : α → Option β) (pre post : List α)
    (h : ∀ a ∈ pre, f a = none) :
    (pre ++ post).findSome? f = post.findSome? f := by
  induction pre with
  | nil => rfl
  | cons a rest ih =>
    have ha : f a = none := h a (by simp)
    simp only [List.cons_append, List.findSome?]
    rw [ha]
    exact ih (fun x hx => h x (by simp [hx]))

/-- `findSome?` is `none` exactly when the function fails everywhere. -/
theorem findSome?_eq_none_iff' {α β : Type} (f : α → Option β) (l : List α) :
    l.findSome? f = none ↔ ∀ a ∈ l, f a = none := by
  induction l with
  | nil => simp [List.findSome?]
  | cons a rest ih =>
    simp only [List.findSome?]
    cases hfa : f a with
    | some b => simp [hfa]
    | none =>
      simp only [ih]
      constructor
      · intro h x hx
        rcases List.mem_cons.mp hx with h1 | h2
        · exact h1 ▸ hfa
        · exact h x h2
      · intro h x hx
        exact h x (List.mem_cons_of_mem a hx)

/-- `List.lookup` is unaffected by filtering with a key-only predicate
that holds at the looked-up key. -/
theorem lookup_filter_of_pred {α : Type} (l : List (String × α)) (p : String → Bool)
    (k : String) (hk : p k = true) :
    (l.filter (fun e => p e.1)).lookup k = l.lookup k := by
  induction l with
  | nil => rfl
  | cons e rest ih =>
    by_cases hke : k = e.1
    · subst hke
      simp [List.filter, hk, List.lookup]
    · have hbeq : (k == e.1) = false := beq_eq_false_iff_ne.mpr hke
      cases hpe : p e.1 with
      | true => simp [List.filter, hpe, List.lookup, hbeq, ih]
      | false => simp [List.filter, hpe, List.lookup, hbeq, ih]

/-! ## Claim theorems -/

/-- Claim C1: for a `text/event-stream` body, `parseSSEResponse` returns
the decode of the first `data:` line whose trimmed payload unmarshals as
a JSON-RPC response; when no `data:` line decodes it falls back to
unmarshalling the entire body; and it errors (`none`) exactly when both
fail. -/
theorem parseSSEResponse_first_data_or_fallback
    (unmarshal : String → Option MCPResponse) (text : String) :
    (∀ pre line post resp, sseLines text = pre ++ line :: post →
        (∀ l ∈ pre, sseDecodeLine unmarshal l = none) →
        sseDecodeLine unmarshal line = some resp →
        parseSSEResponse unmarshal text = some resp) ∧
    ((∀ l ∈ sseLines text, sseDecodeLine unmarshal l = none) →
        parseSSEResponse unmarshal text = unmarshal text) ∧
    (parseSSEResponse unmarshal text = none ↔
        (∀ l ∈ sseLines text, sseDecodeLine unmarshal l = none) ∧
          unmarshal text = none) := by
  refine ⟨?_, ?_, ?_⟩
  · intro pre line post resp hdec hpre hline
    unfold parseSSEResponse
    rw [hdec, findSome?_append_of_none _ _ _ hpre]
    simp [List.findSome?, hline]
  · intro hall
    unfold parseSSEResponse
    rw [(findSome?_eq_none_iff' _ _).mpr hall]
  · unfold parseSSEResponse
    cases hfs : (sseLines text).findSome? (sseDecodeLine unmarshal) with
    | some r =>
      simp only []
      constructor
      · intro h; exact absurd h (by simp)
      · rintro ⟨hall, _⟩
        rw [(findSome?_eq_none_iff' _ _).mpr hall] at hfs
        exact absurd hfs (by simp)
    | none =>
      simp only []
      rw [findSome?_eq_none_iff'] at hfs
      constructor
      · intro h; exact ⟨hfs, h⟩
      · rintro ⟨_, h⟩; exact h

/-- Witness for C1 at concrete inputs: an SSE body whose second line is
the decodable `data:` line, and a body with no decodable line falling
back to the whole text. -/
theorem parseSSEResponse_first_data_or_fallback_witness :
    parseSSEResponse
        (fun s => if s = "X" then some { jsonrpc := "2.0", id := "1", result := none,
                                          error := none } else none)
        "event: message\ndata: X" =
      some { jsonrpc := "2.0", id := "1", result := none, error := none } := by
  exact (parseSSEResponse_first_data_or_fallback _ "event: message\ndata: X").1
    ["event: message".data] "data: X".data [] _ (by rfl)
    (by intro l hl; simp only [List.mem_singleton] at hl; subst hl; rfl) (by rfl)

/-- Counterexample to C2 as stated: the spec's window is
`expiresAt == 0 ∨ now ≤ expiresAt − 60`, but for a stored record with
`expiresAt = −1` the code (which tests `expiresAt > 0`) still returns
the record's access token, although the spec's condition is false. -/
theorem GetTokenForServer_claim_counterexample :
    ¬ (((GetTokenForServer zeroServerConfig (Except.error "refused") 1000
          (Except.ok [("srv", { accessToken := "A", refreshToken := "", expiresIn := 0,
                                expiresAt := -1, tokenType := "" })]) "srv").1 = "A") ↔
        ((-1 : ℚ) = 0 ∨ (1000 : ℚ) ≤ (-1 : ℚ) - 60)) := by
  intro h
  rcases h.mp rfl with h0 | h1
  · norm_num at h0
  · norm_num at h1

/-- Claim C2 (amended): for a stored token record, `GetTokenForServer`
returns the record's access token iff `expiresAt ≤ 0` (the code treats
any non-positive `expiresAt` as "no expiry", not only `0`) or
`now ≤ expiresAt − 60`; outside that window it returns either `""` or a
freshly refreshed non-empty token, never the record's own access-token
field — and the error component is `nil` throughout. -/
theorem GetTokenForServer_expiry (serverConfig : ServerConfig)
    (net : Except String (Int × Option TokenData)) (now : Int)
    (tokens : List (String × TokenData)) (serverName : String) (tokenData : TokenData)
    (hlook : tokens.lookup serverName = some tokenData) :
    ((tokenData.expiresAt ≤ 0 ∨ (now : ℚ) ≤ tokenData.expiresAt - 60) →
      GetTokenForServer serverConfig net now (Except.ok tokens) serverName =
        (tokenData.accessToken, none)) ∧
    (¬ (tokenData.expiresAt ≤ 0 ∨ (now : ℚ) ≤ tokenData.expiresAt - 60) →
      (GetTokenForServer serverConfig net now (Except.ok tokens) serverName = ("", none) ∨
       ∃ newToken savedTD,
         RefreshOAuthToken now serverConfig net tokenData = Except.ok (newToken, savedTD) ∧
         newToken ≠ "" ∧ tokenData.refreshToken ≠ "" ∧
         GetTokenForServer serverConfig net now (Except.ok tokens) serverName =
           (newToken, none))) := by
  constructor
  · intro hcond
    simp only [GetTokenForServer, hlook]
    rcases hcond with hle | hnow
    · rw [if_neg (not_lt.mpr hle)]
    · by_cases h1 : tokenData.expiresAt > 0
      · rw [if_pos h1, if_neg (not_lt.mpr hnow)]
      · rw [if_neg h1]
  · intro hncond
    push_neg at hncond
    obtain ⟨h0, hnow⟩ := hncond
    simp only [GetTokenForServer, hlook]
    rw [if_pos h0, if_pos hnow]
    by_cases hrt : tokenData.refreshToken ≠ ""
    · rw [if_pos hrt]
      cases hr : RefreshOAuthToken now serverConfig net tokenData with
      | error e => left; rfl
      | ok p =>
        obtain ⟨newToken, savedTD⟩ := p
        by_cases hnt : newToken = ""
        · left; simp [hnt]
        · right; exact ⟨newToken, savedTD, rfl, hnt, hrt, by simp [hnt]⟩
    · rw [if_neg hrt]; left; rfl

/-- Witness for (amended) C2: a record 40 s before its 60 s-buffered
expiry is still served, one 30 s past the buffer with no refresh token
yields the empty token with a nil error. -/
theorem GetTokenForServer_expiry_witness :
    GetTokenForServer zeroServerConfig (Except.error "refused") 10
        (Except.ok [("srv", { accessToken := "A", refreshToken := "", expiresIn := 0,
                              expiresAt := 110, tokenType := "" })]) "srv" = ("A", none) ∧
    GetTokenForServer zeroServerConfig (Except.error "refused") 200
        (Except.ok [("srv", { accessToken := "A", refreshToken := "", expiresIn := 0,
                              expiresAt := 230, tokenType := "" })]) "srv" = ("", none) := by
  constructor
  · exact (GetTokenForServer_expiry zeroServerConfig (Except.error "refused") 10
      [("srv", { accessToken := "A", refreshToken := "", expiresIn := 0,
                 expiresAt := 110, tokenType := "" })] "srv" _ rfl).1
      (Or.inr (by norm_num))
  · rcases (GetTokenForServer_expiry zeroServerConfig (Except.error "refused") 200
      [("srv", { accessToken := "A", refreshToken := "", expiresIn := 0,
                 expiresAt := 230, tokenType := "" })] "srv" _ rfl).2
      (by push_neg; constructor <;> norm_num) with h | ⟨_, _, hr, _⟩
    · exact h
    · exact absurd hr (by simp [RefreshOAuthToken, zeroServerConfig])

/-- Counterexample to C3 as stated: a `tools` command for an
unconfigured server makes the daemon answer with error code
`MCP_ERROR`, not `NOT_FOUND`. -/
theorem handleCommand_not_found_counterexample :
    (handleToolsCommand { config := { servers := [] }, clients := [], toolsCache := [] } 0
        { action := "tools", server := "ghost", tool := "", arguments := none } ""
        (Except.error "unused")).1 =
      errResponse ErrMCPError "server 'ghost' not configured" ∧
    ErrMCPError ≠ ErrNotFound := by
  exact ⟨rfl, by decide⟩

/-- Claim C3 (amended): a `tools` or `call` command naming a server
absent from the loaded configuration (and with no live client or fresh
cache entry for that name) yields `ok = false` with error code
`MCP_ERROR` and message `server \x27<name>\x27 not configured`; the
`NOT_FOUND` code is emitted by the CLI frontend, not by the daemon. -/
theorem handleCommand_unconfigured_server (d : MCPDaemon) (now : Int)
    (cmd : DaemonCommand) (token : String) (listRes : Except String (List Tool))
    (callRes : Except String (Option (List (String × Json))))
    (hcfg : d.config.servers.lookup cmd.server = none)
    (hcl : d.clients.lookup cmd.server = none)
    (hca : d.toolsCache.lookup cmd.server = none)
    (hs : cmd.server ≠ "") (ht : cmd.tool ≠ "") :
    (handleToolsCommand d now cmd token listRes).1 =
      errResponse ErrMCPError ("server '" ++ cmd.server ++ "' not configured") ∧
    (handleCallCommand d cmd token callRes).1 =
      errResponse ErrMCPError ("server '" ++ cmd.server ++ "' not configured") ∧
    (handleToolsCommand d now cmd token listRes).1.ok = false ∧
    (handleCallCommand d cmd token callRes).1.ok = false := by
  have hget : getClient d cmd.server token =
      Except.error ("server '" ++ cmd.server ++ "' not configured") := by
    simp [getClient, hcl, hcfg]
  have h1 : (handleToolsCommand d now cmd token listRes).1 =
      errResponse ErrMCPError ("server '" ++ cmd.server ++ "' not configured") := by
    simp [handleToolsCommand, hs, getTools, hca, getToolsFetch, hget]
  have h2 : (handleCallCommand d cmd token callRes).1 =
      errResponse ErrMCPError ("server '" ++ cmd.server ++ "' not configured") := by
    simp [handleCallCommand, hs, ht, callTool, hget]
  exact ⟨h1, h2, by rw [h1]; rfl, by rw [h2]; rfl⟩

/-- Witness for (amended) C3 at a concrete daemon state and command. -/
theorem handleCommand_unconfigured_server_witness :
    (handleToolsCommand
        { config := { servers := [("other", zeroServerConfig)] }, clients := [],
          toolsCache := [] } 7
        { action := "tools", server := "nope", tool := "t", arguments := none } "tok"
        (Except.error "unused")).1 =
      errResponse ErrMCPError "server 'nope' not configured" := by
  exact (handleCommand_unconfigured_server
    { config := { servers := [("other", zeroServerConfig)] }, clients := [], toolsCache := [] }
    7 { action := "tools", server := "nope", tool := "t", arguments := none } "tok"
    (Except.error "unused") (Except.error "unused2")
    rfl rfl rfl (by decide) (by decide)).1

/-- A filter keeping every element is the identity. -/
theorem filter_eq_self_of {α : Type} (l : List α) (p : α → Bool)
    (h : ∀ a ∈ l, p a = true) : l.filter p = l := by
  induction l with
  | nil => rfl
  | cons a rest ih =>
    have ha := h a (by simp)
    simp [List.filter, ha, ih (fun x hx => h x (by simp [hx]))]

/-- A filter keeping no element is empty. -/
theorem filter_eq_nil_of {α : Type} (l : List α) (p : α → Bool)
    (h : ∀ a ∈ l, p a = false) : l.filter p = [] := by
  induction l with
  | nil => rfl
  | cons a rest ih =>
    have ha := h a (by simp)
    simp [List.filter, ha, ih (fun x hx => h x (by simp [hx]))]

/-- Claim C4: reloading with an unchanged configuration is the identity
on the daemon state — no client is closed, evicted, or reconstructed,
the tools cache is untouched, and this holds for any number of
iterations; moreover, for an arbitrary new configuration, a client
whose server spec is unchanged is kept (same map entry, not closed). -/
theorem reloadConfig_idempotent (d : MCPDaemon)
    (hwf : ∀ e ∈ d.clients, (d.config.servers.lookup e.1).isSome) :
    (reloadConfig d.config d).1 = d ∧
    (reloadConfig d.config d).2 = [] ∧
    (∀ N : ℕ, (fun s => (reloadConfig s.config s).1)^[N] d = d) ∧
    (∀ newConfig name sc, d.config.servers.lookup name = some sc →
        newConfig.servers.lookup name = some sc →
        (reloadConfig newConfig d).1.clients.lookup name = d.clients.lookup name ∧
        name ∉ (reloadConfig newConfig d).2) := by
  have hsurv : ∀ e ∈ d.clients, clientSurvives d.config d.config e.1 = true := by
    intro e he
    obtain ⟨sc, hsc⟩ := Option.isSome_iff_exists.mp (hwf e he)
    simp [clientSurvives, hsc]
  have hclients :
      d.clients.filter (fun e => clientSurvives d.config d.config e.1) = d.clients :=
    filter_eq_self_of _ _ hsurv
  have hclosedlist :
      d.clients.filter (fun e => ! clientSurvives d.config d.config e.1) = [] :=
    filter_eq_nil_of _ _ (fun a ha => by rw [hsurv a ha]; rfl)
  have hstep : (reloadConfig d.config d).1 = d := by
    simp only [reloadConfig, hclients, hclosedlist]
    rw [filter_eq_self_of d.toolsCache
      (fun e => !((List.map (fun e2 => e2.1) ([] : List (String × MCPClient))).contains e.1))
      (fun a _ => rfl)]
  refine ⟨hstep, by simp only [reloadConfig, hclosedlist]; rfl, ?_, ?_⟩
  · intro N
    induction N with
    | zero => rfl
    | succ n ih => rw [Function.iterate_succ_apply', ih]; exact hstep
  · intro newConfig name sc hold hnew
    have hsv : clientSurvives d.config newConfig name = true := by
      simp [clientSurvives, hnew, hold]
    constructor
    · exact lookup_filter_of_pred d.clients
        (fun k => clientSurvives d.config newConfig k) name hsv
    · intro hmem
      simp only [reloadConfig, List.mem_map, List.mem_filter] at hmem
      obtain ⟨e, ⟨_, hns⟩, hfst⟩ := hmem
      rw [hfst, hsv] at hns
      exact absurd hns (by decide)

/-- Witness for C4: a one-server daemon state is untouched by a reload
with the identical configuration. -/
theorem reloadConfig_idempotent_witness :
    (reloadConfig { servers := [("a", zeroServerConfig)] }
        { config := { servers := [("a", zeroServerConfig)] },
          clients := [("a", NewMCPClient "a" zeroServerConfig)],
          toolsCache := [("a", { tools := [], expires := 300 })] }).1 =
      { config := { servers := [("a", zeroServerConfig)] },
        clients := [("a", NewMCPClient "a" zeroServerConfig)],
        toolsCache := [("a", { tools := [], expires := 300 })] } := by
  exact (reloadConfig_idempotent
    { config := { servers := [("a", zeroServerConfig)] },
      clients := [("a", NewMCPClient "a" zeroServerConfig)],
      toolsCache := [("a", { tools := [], expires := 300 })] }
    (by intro e he; rw [List.mem_singleton] at he; subst he; rfl)).1

/-- Claim C5: for a non-session-based server with a cached session ID,
`Initialize` adopts the ID and performs no RPC; otherwise it performs
the `initialize` JSON-RPC with `protocolVersion "2024-11-05"`, and on a
successful response captures the `Mcp-Session-Id` header and persists
it to the sessions store exactly when the server is not
session-based. -/
theorem Initialize_session_semantics (c : MCPClient)
    (loadSessions : Except Unit (List (String × String)))
    (rpc : Except String (MCPResponse × String)) :
    (∀ sessions sid, c.config.sessionBased = false → loadSessions = Except.ok sessions →
        sessions.lookup c.serverName = some sid →
        Initialize c loadSessions rpc =
          { rpcCall := none, sessionID := sid, saved := none, error := none }) ∧
    ((c.config.sessionBased = true ∨
        (∀ sessions, loadSessions = Except.ok sessions →
          sessions.lookup c.serverName = none)) →
      (Initialize c loadSessions rpc).rpcCall = some ("initialize", initializeParams)) ∧
    initializeParams.protocolVersion = "2024-11-05" ∧
    (∀ resp sid, rpc = Except.ok (resp, sid) →
        (c.config.sessionBased = true ∨
          (∀ sessions, loadSessions = Except.ok sessions →
            sessions.lookup c.serverName = none)) →
        resp.error = none → sid ≠ "" →
        (Initialize c loadSessions rpc).sessionID = sid ∧
        (Initialize c loadSessions rpc).saved =
          (if c.config.sessionBased then none else some (c.serverName, sid))) := by
  have hcached : ∀ (hcond : c.config.sessionBased = true ∨
      (∀ sessions, loadSessions = Except.ok sessions →
        sessions.lookup c.serverName = none)),
      cachedSession c loadSessions = none := by
    intro hcond
    rcases hcond with hsb | hnone
    · simp [cachedSession, hsb]
    · by_cases hsb : c.config.sessionBased
      · simp [cachedSession, hsb]
      · cases hload : loadSessions with
        | error u => simp [cachedSession, hsb, hload]
        | ok sessions => simp [cachedSession, hsb, hload, hnone sessions hload]
  refine ⟨?_, ?_, rfl, ?_⟩
  · intro sessions sid hsb hload hsid
    simp [Initialize.eq_def, cachedSession, hsb, hload, hsid]
  · intro hcond
    simp only [Initialize.eq_def, hcached hcond]
    cases rpc with
    | error e => rfl
    | ok p =>
      obtain ⟨resp, sid⟩ := p
      cases hre : resp.error with
      | some e2 => simp [hre]
      | none => by_cases hsid : sid = "" <;> simp [hre, hsid]
  · intro resp sid hrpc hcond herr hsid
    subst hrpc
    simp only [Initialize.eq_def, hcached hcond, herr]
    simp [hsid]

/-- Witness for C5: a non-session-based client with a cached session
adopts it without issuing the RPC. -/
theorem Initialize_session_semantics_witness :
    Initialize (NewMCPClient "s" zeroServerConfig)
        (Except.ok [("s", "cached-id")]) (Except.error "unused") =
      { rpcCall := none, sessionID := "cached-id", saved := none, error := none } := by
  exact (Initialize_session_semantics (NewMCPClient "s" zeroServerConfig)
    (Except.ok [("s", "cached-id")]) (Except.error "unused")).1
    [("s", "cached-id")] "cached-id" rfl rfl rfl

/-- Claim C7: an OAuth callback whose `state` differs from the
generated state makes `DoOAuthFlow` fail before the code-for-token
exchange: no exchange request is ever built. -/
theorem DoOAuthFlow_csrf_reject (tokenURL clientID clientSecret codeVerifier state : String)
    (cb : CallbackResult) (hstate : cb.state ≠ state) :
    ∃ e, DoOAuthFlowExchangePhase tokenURL clientID clientSecret codeVerifier state cb =
      Except.error e := by
  unfold DoOAuthFlowExchangePhase
  by_cases h1 : cb.err ≠ ""
  · rw [if_pos h1]; exact ⟨_, rfl⟩
  · rw [if_neg h1]
    by_cases h2 : cb.authCode = ""
    · rw [if_pos h2]; exact ⟨_, rfl⟩
    · rw [if_neg h2, if_pos hstate]; exact ⟨_, rfl⟩

/-- Witness for C7: a forged callback state is rejected. -/
theorem DoOAuthFlow_csrf_reject_witness :
    ∃ e, DoOAuthFlowExchangePhase "https://t" "cid" "" "ver" "good"
        { authCode := "code", state := "evil", err := "" } = Except.error e := by
  exact DoOAuthFlow_csrf_reject "https://t" "cid" "" "ver" "good"
    { authCode := "code", state := "evil", err := "" } (by decide)

/-- `getClient` never modifies the tools cache. -/
theorem getClient_toolsCache (d : MCPDaemon) (serverName token : String)
    (c : MCPClient) (d1 : MCPDaemon)
    (h : getClient d serverName token = Except.ok (c, d1)) :
    d1.toolsCache = d.toolsCache := by
  unfold getClient at h
  cases hl : d.clients.lookup serverName with
  | some client =>
    rw [hl] at h
    injection h with h'
    injection h' with hc hd
    rw [← hd]
  | none =>
    rw [hl] at h
    cases hc : d.config.servers.lookup serverName with
    | none => rw [hc] at h; exact absurd h (by simp)
    | some sc =>
      rw [hc] at h
      injection h with h'
      injection h' with hc2 hd
      rw [← hd]

/-- On any failing fetch, `getToolsFetch` leaves the cache as it was. -/
theorem getToolsFetch_error_cache (d : MCPDaemon) (now : Int)
    (serverName token : String) (listRes : Except String (List Tool)) (e : String)
    (h : (getToolsFetch d now serverName token listRes).1 = Except.error e) :
    (getToolsFetch d now serverName token listRes).2.toolsCache = d.toolsCache := by
  unfold getToolsFetch at h ⊢
  cases hg : getClient d serverName token with
  | error e2 => rfl
  | ok p =>
    obtain ⟨c, d1⟩ := p
    rw [hg] at h
    cases listRes with
    | error e3 => exact getClient_toolsCache d serverName token c d1 hg
    | ok tools => simp at h

/-- Claim C9: whenever `getTools` fails (client acquisition or the
`tools/list` RPC), the tools cache is left exactly as it was — no entry
added, no existing (even expired) entry removed. -/
theorem getTools_error_cache_unchanged (d : MCPDaemon) (now : Int)
    (serverName token : String) (listRes : Except String (List Tool)) (e : String)
    (h : (getTools d now serverName token listRes).1 = Except.error e) :
    (getTools d now serverName token listRes).2.toolsCache = d.toolsCache := by
  unfold getTools at h ⊢
  cases hl : d.toolsCache.lookup serverName with
  | none =>
    rw [hl] at h
    exact getToolsFetch_error_cache d now serverName token listRes e h
  | some cached =>
    rw [hl] at h
    dsimp only at h ⊢
    by_cases hfresh : now < cached.expires
    · rw [if_pos hfresh] at h
      exact absurd h (by simp)
    · rw [if_neg hfresh] at h
      rw [if_neg hfresh]
      exact getToolsFetch_error_cache d now serverName token listRes e h

/-- Witness for C9: a failing fetch for a server with an expired cache
entry leaves that entry in place. -/
theorem getTools_error_cache_unchanged_witness :
    (getTools { config := { servers := [("x", zeroServerConfig)] }, clients := [],
                toolsCache := [("x", { tools := [], expires := 5 })] }
        10 "x" "" (Except.error "boom")).2.toolsCache =
      [("x", { tools := [], expires := 5 })] := by
  exact getTools_error_cache_unchanged
    { config := { servers := [("x", zeroServerConfig)] }, clients := [],
      toolsCache := [("x", { tools := [], expires := 5 })] }
    10 "x" "" (Except.error "boom") "boom" rfl

/-- Claim C10: without an `oauth.token_url`, `RefreshOAuthToken` fails
unconditionally, and `GetTokenForServer` on any record past its expiry
window — refresh token or not — returns the empty string with a nil
error, giving the caller no distinct re-auth signal. -/
theorem RefreshOAuthToken_no_token_url (serverConfig : ServerConfig)
    (hurl : serverConfig.oauth = none ∨
      ∃ o, serverConfig.oauth = some o ∧ o.tokenURL = "") :
    (∀ (now : Int) net tokenData,
        RefreshOAuthToken now serverConfig net tokenData =
          Except.error "no token URL configured") ∧
    (∀ (now : Int) net tokens serverName tokenData,
        tokens.lookup serverName = some tokenData →
        tokenData.expiresAt > 0 → (now : ℚ) > tokenData.expiresAt - 60 →
        GetTokenForServer serverConfig net now (Except.ok tokens) serverName =
          ("", none)) := by
  have hrefresh : ∀ (now : Int) net tokenData,
      RefreshOAuthToken now serverConfig net tokenData =
        Except.error "no token URL configured" := by
    intro now net tokenData
    rcases hurl with h | ⟨o, ho, hto⟩
    · simp [RefreshOAuthToken, h]
    · simp [RefreshOAuthToken, ho, hto]
  refine ⟨hrefresh, ?_⟩
  intro now net tokens serverName tokenData hlook h0 hnow
  simp only [GetTokenForServer, hlook]
  rw [if_pos h0, if_pos hnow]
  by_cases hrt : tokenData.refreshToken ≠ ""
  · rw [if_pos hrt, hrefresh now net tokenData]
  · rw [if_neg hrt]

/-- Witness for C10: an expired record with a refresh token but no
configured token URL yields `("", nil)`. -/
theorem RefreshOAuthToken_no_token_url_witness :
    GetTokenForServer zeroServerConfig (Except.ok (200, none)) 500
        (Except.ok [("srv", { accessToken := "A", refreshToken := "R", expiresIn := 0,
                              expiresAt := 100, tokenType := "" })]) "srv" = ("", none) := by
  exact (RefreshOAuthToken_no_token_url zeroServerConfig (Or.inl rfl)).2
    500 (Except.ok (200, none)) _ "srv" _ rfl (by norm_num) (by norm_num)

/-- Counterexample to C6 as stated: a `tools/list` result object that
lacks the `tools` key makes `ListTools` fail with message
`no tools in response`, not `unexpected response format`. -/
theorem ListTools_missing_tools_counterexample :
    ListToolsFromResponse
        { jsonrpc := "2.0", id := "1", result := some [("stuff", Json.null)],
          error := none } =
      Except.error "no tools in response" ∧
    "no tools in response" ≠ "unexpected response format" := by
  exact ⟨rfl, by decide⟩

/-- Claim C6 (amended): when a `tools/list` result object is present
but lacks the `tools` key, `ListTools` fails with message
`no tools in response` and the daemon surfaces it as an `MCP_ERROR`
with that message; the message `unexpected response format` is produced
only when the `result` member itself is absent (nil). -/
theorem ListTools_missing_tools (resp : MCPResponse) (fields : List (String × Json))
    (herr : resp.error = none) (hres : resp.result = some fields)
    (hlook : fields.lookup "tools" = none) :
    ListToolsFromResponse resp = Except.error "no tools in response" ∧
    (∀ resp2 : MCPResponse, resp2.error = none → resp2.result = none →
        ListToolsFromResponse resp2 = Except.error "unexpected response format") ∧
    (∀ (d : MCPDaemon) (now : Int) (cmd : DaemonCommand) (token : String) (c : MCPClient),
        cmd.server ≠ "" → d.toolsCache.lookup cmd.server = none →
        d.clients.lookup cmd.server = some c →
        (handleToolsCommand d now cmd token (Except.error "no tools in response")).1 =
          errResponse ErrMCPError "no tools in response") := by
  refine ⟨?_, ?_, ?_⟩
  · simp [ListToolsFromResponse, herr, hres, hlook]
  · intro resp2 herr2 hres2
    simp [ListToolsFromResponse, herr2, hres2]
  · intro d now cmd token c hs hca hcl
    have hget : getClient d cmd.server token = Except.ok (c, d) := by
      simp [getClient, hcl]
    simp [handleToolsCommand, hs, getTools, hca, getToolsFetch, hget]

/-- Witness for (amended) C6 at a concrete response and daemon state. -/
theorem ListTools_missing_tools_witness :
    ListToolsFromResponse
        { jsonrpc := "2.0", id := "7", result := some [("meta", Json.num 3)],
          error := none } =
      Except.error "no tools in response" := by
  exact (ListTools_missing_tools
    { jsonrpc := "2.0", id := "7", result := some [("meta", Json.num 3)],
      error := none }
    [("meta", Json.num 3)] rfl rfl rfl).1

/-- Round-trip for `Tool` values whose `parameters` map is not
present-but-empty (an empty map is omitted by `omitempty` and decodes
back as the nil map). -/
theorem decodeTool_encodeTool (t : Tool) (ht : t.parameters ≠ some []) :
    decodeTool (encodeTool t) = some t := by
  obtain ⟨n, d, params⟩ := t
  simp only [ne_eq] at ht
  rcases params with _ | ps
  · by_cases hd : d = ""
    · subst hd; rfl
    · simp only [encodeTool]
      rw [if_neg hd]
      rfl
  · rcases ps with _ | ⟨p, pt⟩
    · exact absurd rfl ht
    · by_cases hd : d = ""
      · subst hd; rfl
      · simp only [encodeTool]
        rw [if_neg hd]
        rfl

/-- Round-trip for `DaemonCommand` values whose `arguments` map is not
present-but-empty. -/
theorem decodeCommand_encodeCommand (c : DaemonCommand) (hc : c.arguments ≠ some []) :
    decodeCommand (encodeCommand c) = some c := by
  obtain ⟨a, srv, tl, args⟩ := c
  simp only [ne_eq] at hc
  have main : ∀ args2 : Option (List (String × Json)), args2 ≠ some [] →
      decodeCommand (encodeCommand
        { action := a, server := srv, tool := tl, arguments := args2 }) =
        some { action := a, server := srv, tool := tl, arguments := args2 } := by
    intro args2 hargs
    rcases args2 with _ | ps
    · by_cases hs : srv = "" <;> by_cases htl : tl = ""
      · subst hs; subst htl; rfl
      · subst hs; simp only [encodeCommand]; rw [if_neg htl]; rfl
      · subst htl; simp only [encodeCommand]; rw [if_neg hs]; rfl
      · simp only [encodeCommand]; rw [if_neg hs, if_neg htl]; rfl
    · rcases ps with _ | ⟨p, pt⟩
      · exact absurd rfl hargs
      · by_cases hs : srv = "" <;> by_cases htl : tl = ""
        · subst hs; subst htl; rfl
        · subst hs; simp only [encodeCommand]; rw [if_neg htl]; rfl
        · subst htl; simp only [encodeCommand]; rw [if_neg hs]; rfl
        · simp only [encodeCommand]; rw [if_neg hs, if_neg htl]; rfl
  exact main args hc

/-- Round-trip for `Response` values whose `data` is not the JSON
`null` (a present `null` decodes into the nil interface, i.e. an absent
datum). -/
theorem decodeResponse_encodeResponse (r : Response) (hr : r.data ≠ some Json.null) :
    decodeResponse (encodeResponse r) = some r := by
  obtain ⟨okv, data, err⟩ := r
  simp only [ne_eq] at hr
  rcases err with _ | e
  · rcases data with _ | j
    · rfl
    · cases j with
      | null => exact absurd rfl hr
      | bool b => rfl
      | num q => rfl
      | str s2 => rfl
      | arr xs => rfl
      | obj fs => rfl
  · rcases data with _ | j
    · rfl
    · cases j with
      | null => exact absurd rfl hr
      | bool b => rfl
      | num q => rfl
      | str s2 => rfl
      | arr xs => rfl
      | obj fs => rfl

/-- Round-trip for `TokenData` (unconditional: all its fields are
scalars whose zero values are restored on decode). -/
theorem decodeTokenData_encodeTokenData (td : TokenData) :
    decodeTokenData (encodeTokenData td) = some td := by
  obtain ⟨a, rt, ei, ea, tt⟩ := td
  by_cases h1 : rt = "" <;> by_cases h2 : ei = 0 <;> by_cases h3 : ea = 0 <;>
      by_cases h4 : tt = "" <;>
    simp [encodeTokenData, decodeTokenData, decodeStringField, decodeIntField,
          decodeNumField, List.lookup, h1, h2, h3, h4]

/-- Counterexample to C8 as stated: a `Tool` with a present-but-empty
`parameters` map does not survive the JSON round trip — `omitempty`
drops the empty map on encode and the decoder restores the nil map. -/
theorem wire_roundtrip_counterexample :
    decodeTool (encodeTool { name := "t", description := "", parameters := some [] }) ≠
      some { name := "t", description := "", parameters := some [] } := by
  intro h
  have h2 : decodeTool (encodeTool
      { name := "t", description := "", parameters := some [] }) =
      some { name := "t", description := "", parameters := none } := rfl
  rw [h2] at h
  simp only [Option.some.injEq, Tool.mk.injEq] at h
  exact absurd h.2.2 (by simp)

/-- Claim C8 (amended): `decode(encode(x)) = x` holds for `Tool`,
`Command` and `Response` values whose dynamic fields are faithfully
representable — `parameters`/`arguments` not present-but-empty and
`data` not JSON `null` (Go's `omitempty`/nil-interface conventions
conflate those with absence) — and unconditionally for `TokenRecord`. -/
theorem wire_roundtrip (t : Tool) (c : DaemonCommand) (r : Response) (td : TokenData)
    (ht : t.parameters ≠ some []) (hc : c.arguments ≠ some [])
    (hr : r.data ≠ some Json.null) :
    decodeTool (encodeTool t) = some t ∧
    decodeCommand (encodeCommand c) = some c ∧
    decodeResponse (encodeResponse r) = some r ∧
    decodeTokenData (encodeTokenData td) = some td :=
  ⟨decodeTool_encodeTool t ht, decodeCommand_encodeCommand c hc,
   decodeResponse_encodeResponse r hr, decodeTokenData_encodeTokenData td⟩

/-- Witness for (amended) C8 at concrete values of all four wire
types. -/
theorem wire_roundtrip_witness :
    decodeTool (encodeTool
      { name := "t1", description := "d", parameters := some [("x", Json.num 2)] }) =
      some { name := "t1", description := "d", parameters := some [("x", Json.num 2)] } ∧
    decodeCommand (encodeCommand
      { action := "call", server := "s", tool := "t", arguments := some [("a", Json.str "v")] }) =
      some { action := "call", server := "s", tool := "t",
             arguments := some [("a", Json.str "v")] } ∧
    decodeResponse (encodeResponse
      { ok := true, data := some (Json.str "pong"), error := none }) =
      some { ok := true, data := some (Json.str "pong"), error := none } ∧
    decodeTokenData (encodeTokenData
      { accessToken := "A", refreshToken := "R", expiresIn := 3600, expiresAt := 100,
        tokenType := "Bearer" }) =
      some { accessToken := "A", refreshToken := "R", expiresIn := 3600, expiresAt := 100,
             tokenType := "Bearer" } := by
  exact wire_roundtrip
    { name := "t1", description := "d", parameters := some [("x", Json.num 2)] }
    { action := "call", server := "s", tool := "t", arguments := some [("a", Json.str "v")] }
    { ok := true, data := some (Json.str "pong"), error := none }
    { accessToken := "A", refreshToken := "R", expiresIn := 3600, expiresAt := 100,
      tokenType := "Bearer" }
    (by simp) (by simp) (by simp)

end Mcpx
